import Mathlib

/-!
# Verification of the tmx tilemap library core

Shallow embedding of the tile-data codec, global-ID resolution, layer
container, chunk addressing and object/template inheritance from the Go
source, with theorems checking the specification's claims.

Conventions: Go `uint32` values are modelled as `Nat` (masked where overflow
matters), Go `int` as `Int` with Go's truncated `%` and `/` (`Int.tmod`,
`Int.tdiv`), Go slices as `List`, nil-able pointers as `Option`, and a Go
panic as an `Option.none` result.
-/

namespace Tmx

/-- TileID is a 32-bit unsigned integer, modelled as `Nat` (values < 2^32). -/
abbrev TileID := Nat

/-- FlipH bitflag (bit 32). -/
def FlipH : TileID := 0x80000000

/-- FlipV bitflag (bit 31). -/
def FlipV : TileID := 0x40000000

/-- FlipD bitflag (bit 30). -/
def FlipD : TileID := 0x20000000

/-- RotateCCW bitflag (bit 29). -/
def RotateCCW : TileID := 0x10000000

/-- ClearMask removes all flip/rotate flags: the 32-bit complement of the
flag bits, `^(FlipH | FlipV | FlipD | RotateCCW)` in the source. -/
def ClearMask : TileID := (FlipH ||| FlipV ||| FlipD ||| RotateCCW) ^^^ 0xFFFFFFFF

example : ClearMask = 0x0FFFFFFF := by decide

example : Int.tmod (-1) 32 = -1 := by decide
example : Int.tdiv (-7) 2 = -3 := by decide

/-! ## Tilesets and global-ID resolution (`map.go`) -/

/-- One tile definition inside a tileset (only identity is relevant here). -/
structure Tile where
  ID : Nat
deriving DecidableEq

/-- A tileset: a catalog of tiles. -/
structure Tileset where
  Tiles : List Tile
deriving DecidableEq

/-- A map's tileset entry: the tileset plus the global-ID offset at which its
local IDs begin. -/
structure MapTileset where
  FirstGID : TileID
  Tileset : Tileset
deriving DecidableEq

/-- A map, reduced to the fields global-ID resolution reads. -/
structure Map where
  Tilesets : List MapTileset

/-- The downward scan `for i := len(m.Tilesets)-1; i >= 0; i--` of
`Map.Tileset`: later entries are examined before earlier ones, and the scan
returns the first entry (from the end) whose `FirstGID ≤ clean`. -/
def tilesetScan : List MapTileset → TileID → Option MapTileset
  | [], _ => none
  | ts :: rest, clean =>
    match tilesetScan rest clean with
    | some r => some r
    | none => if ts.FirstGID ≤ clean then some ts else none

/-- `Map.Tileset(gid)` from `map.go`: clear the flip/rotate flags; if the
cleared value is nonzero, scan the tileset list from the end for the first
entry with `FirstGID ≤ clean` and return it with `clean - FirstGID`;
otherwise return no tileset and local ID 0. -/
def Map.Tileset (m : Map) (gid : TileID) : Option Tileset × TileID :=
  let clean := gid &&& ClearMask
  if clean ≠ 0 then
    match tilesetScan m.Tilesets clean with
    | some ts => (some ts.Tileset, clean - ts.FirstGID)
    | none => (none, 0)
  else (none, 0)

/-- If every entry's `FirstGID` exceeds the target, the scan finds nothing. -/
theorem tilesetScan_eq_none (l : List MapTileset) (clean : TileID)
    (h : ∀ ts ∈ l, clean < ts.FirstGID) : tilesetScan l clean = none := by
  induction l with
  | nil => rfl
  | cons ts rest ih =>
    have hrest := ih (fun t ht => h t (List.mem_cons_of_mem ts ht))
    have hts := h ts (List.mem_cons_self ts rest)
    simp [tilesetScan, hrest, Nat.not_le.mpr hts]

/-- The scan returns the entry at the greatest index whose `FirstGID` is at
most the target. -/
theorem tilesetScan_eq_last_le (l : List MapTileset) (clean : TileID)
    (i : Nat) (hi : i < l.length)
    (hle : (l.get ⟨i, hi⟩).FirstGID ≤ clean)
    (hafter : ∀ j (hj : j < l.length), i < j → clean < (l.get ⟨j, hj⟩).FirstGID) :
    tilesetScan l clean = some (l.get ⟨i, hi⟩) := by
  induction l generalizing i with
  | nil => exact absurd hi (Nat.not_lt_zero i)
  | cons ts rest ih =>
    cases i with
    | zero =>
      have hrest : tilesetScan rest clean = none := by
        apply tilesetScan_eq_none
        intro t ht
        obtain ⟨⟨j, hj⟩, hget⟩ := List.mem_iff_get.mp ht
        have := hafter (j + 1) (by simpa using Nat.succ_lt_succ hj) (Nat.succ_pos j)
        rw [← hget]
        simpa using this
      simp only [tilesetScan, hrest]
      simp only [List.get] at hle
      simp [hle]
    | succ i' =>
      have hi' : i' < rest.length := Nat.lt_of_succ_lt_succ hi
      have hrest : tilesetScan rest clean = some (rest.get ⟨i', hi'⟩) := by
        apply ih i' hi'
        · exact hle
        · intro j hj hij
          have := hafter (j + 1) (by simpa using Nat.succ_lt_succ hj) (Nat.succ_lt_succ hij)
          simpa using this
      simp [tilesetScan, hrest]

/-- Example map from the spec: tilesets with FirstGID values {1, 1, 50, 120}. -/
def exampleMap : Map :=
  { Tilesets :=
      [ { FirstGID := 1, Tileset := { Tiles := [⟨100⟩] } }
      , { FirstGID := 1, Tileset := { Tiles := [⟨200⟩] } }
      , { FirstGID := 50, Tileset := { Tiles := [⟨300⟩] } }
      , { FirstGID := 120, Tileset := { Tiles := [⟨400⟩] } } ] }

/-- C2: `Map.Tileset(gid)` clears the flag bits; a cleared value of 0 yields
no tileset and local ID 0; otherwise the scan from the last entry toward the
first returns the first tileset with `FirstGID ≤ clean` together with
`clean - FirstGID`; for FirstGIDs {1, 1, 50, 120}, GID 75 resolves to the
tileset with FirstGID 50 and local ID 25, and GID 0 to no tileset. -/
theorem C2_global_id_resolution :
    (∀ (m : Map) (gid : TileID), gid &&& ClearMask = 0 →
      Map.Tileset m gid = (none, 0)) ∧
    (∀ (m : Map) (gid : TileID) (i : Nat) (hi : i < m.Tilesets.length),
      gid &&& ClearMask ≠ 0 →
      (m.Tilesets.get ⟨i, hi⟩).FirstGID ≤ gid &&& ClearMask →
      (∀ j (hj : j < m.Tilesets.length), i < j →
        gid &&& ClearMask < (m.Tilesets.get ⟨j, hj⟩).FirstGID) →
      Map.Tileset m gid =
        (some (m.Tilesets.get ⟨i, hi⟩).Tileset,
         (gid &&& ClearMask) - (m.Tilesets.get ⟨i, hi⟩).FirstGID)) ∧
    (Map.Tileset exampleMap 75 = (some { Tiles := [⟨300⟩] }, 25) ∧
     Map.Tileset exampleMap 0 = (none, 0)) := by
  refine ⟨?_, ?_, by decide, by decide⟩
  · intro m gid h
    simp [Map.Tileset, h]
  · intro m gid i hi hne hle hafter
    have hscan := tilesetScan_eq_last_le m.Tilesets (gid &&& ClearMask) i hi hle hafter
    simp [Map.Tileset, hne, hscan]

/-- Witness for C2: the general scan characterization applied to the example
map at GID 75 (index 2 is the last entry with FirstGID ≤ 75). -/
theorem C2_witness :
    Map.Tileset exampleMap 75 = (some { Tiles := [⟨300⟩] }, 25) :=
  C2_global_id_resolution.2.1 exampleMap 75 2 (by decide) (by decide) (by decide)
    (by decide)

/-! ## CSV tile-data decoding (`decodeCSV`) -/

/-- Go `strconv.ParseUint(s, 10, 32)`: returns the parsed value and a flag
that is `true` on success. An empty or non-digit string is a syntax error
with value 0; a value above 2^32-1 is a range error with the max value. -/
def parseUint32 (s : List Char) : Nat × Bool :=
  if s.isEmpty then (0, false)
  else if s.all (fun c => c.isDigit) then
    let v := s.foldl (fun acc c => acc * 10 + (c.toNat - 48)) 0
    if v ≤ 0xFFFFFFFF then (v, true) else (0xFFFFFFFF, false)
  else (0, false)

/-- Go `strings.Split(s, ",")`. -/
def splitComma : List Char → List (List Char)
  | [] => [[]]
  | c :: rest =>
    match splitComma rest with
    | f :: fs => if c = ',' then [] :: f :: fs else (c :: f) :: fs
    | [] => [[]]

/-- The loop of `decodeCSV`, exactly as written in the source: when
`ParseUint` FAILS (`err != nil`) the error value is stored and the loop
continues; when it SUCCEEDS the function returns `err` — which is nil — so
decoding reports success immediately, leaving the rest of the destination
untouched. -/
def csvLoop : List (List Char) → List TileID → Nat → List TileID
  | [], gids, _ => gids
  | id :: rest, gids, i =>
    let r := parseUint32 id
    if r.2 = false then csvLoop rest (gids.set i r.1) (i + 1)
    else gids

/-- `decodeCSV(data, gids)`: split on commas, error (`none`) when the field
count differs from the destination length, otherwise run the per-field loop
and report success (`some finalDestination`). -/
def decodeCSV (data : List Char) (gids : List TileID) : Option (List TileID) :=
  let ids := splitComma data
  if ids.length ≠ gids.length then none
  else some (csvLoop ids gids 0)

/-- Decimal rendering of one unsigned tile ID. -/
def natToChars (n : Nat) : List Char := Nat.toDigits 10 n

/-- A tile array rendered as comma-separated unsigned-integer text. -/
def renderCSV (tiles : List TileID) : List Char :=
  ((tiles.map natToChars).intersperse [',']).flatten

example : renderCSV [1, 2] = ['1', ',', '2'] := by decide

/-- C1 fails on the code: rendering `[1, 2]` as CSV text `"1,2"` and decoding
it into a zeroed destination of length 2 returns success, but the destination
is left `[0, 0]`, not `[1, 2]` — `decodeCSV` inverts the `ParseUint` error
check, so a successful parse returns the nil error immediately and no value
is ever stored. -/
theorem C1_csv_roundtrip_fails :
    decodeCSV (renderCSV [1, 2]) [0, 0] = some [0, 0] ∧
    ([0, 0] : List TileID) ≠ [1, 2] := by
  exact ⟨by decide, by decide⟩

/-! ## Tile layers and infinite-map chunk addressing (`tile_layer.go`) -/

/-- A width/height pair in tile units (Go `int`). -/
structure Size where
  Width : Int
  Height : Int
deriving DecidableEq

/-- One chunk of an infinite map: its placement rectangle and tile data. -/
structure Chunk where
  X : Int
  Y : Int
  Width : Int
  Height : Int
  Tiles : List TileID
deriving DecidableEq

/-- `Rect.Right()`: X + Width. -/
def Chunk.Right (c : Chunk) : Int := c.X + c.Width

/-- `Rect.Bottom()`: Y + Height. -/
def Chunk.Bottom (c : Chunk) : Int := c.Y + c.Height

/-- A tile layer, reduced to the fields tile lookup and chunk addressing
read. For finite maps `Tiles` is populated and `Chunks` is empty; for
infinite maps `Chunks` is populated and the chunk-grid fields are derived
after parsing. -/
structure TileLayer where
  Width : Int
  Height : Int
  Tiles : List TileID
  Chunks : List Chunk
  ChunkSize : Size
  chunkCols : Int
  chunkRows : Int
  chunkSz : Size
deriving DecidableEq

/-- Go's `v %= m; if v < 0 { v += m }` normalization (truncated `%`, then a
conditional correction, i.e. floored modulo for positive m). -/
def goNorm (v m : Int) : Int :=
  let r := Int.tmod v m
  if r < 0 then r + m else r

/-- The chunk-index computation of `TileLayer.ChunkAt`, exactly as in the
source: `i := (x / layer.ChunkSize.Width) + ((y * layer.ChunkSize.Height) *
layer.chunkCols)` on the normalized coordinates. -/
def TileLayer.chunkIndexAt (layer : TileLayer) (x y : Int) : Int :=
  let x := goNorm x layer.ChunkSize.Width
  let y := goNorm y layer.ChunkSize.Height
  Int.tdiv x layer.ChunkSize.Width + (y * layer.ChunkSize.Height) * layer.chunkCols

/-- `TileLayer.ChunkAt`: returns `nil` for a layer without chunks; otherwise
normalizes the coordinates, computes the chunk index, and returns
`&layer.Chunks[i]` with local coordinates. The slice access panics when the
index is out of range, modelled as `none`. -/
def TileLayer.ChunkAt (layer : TileLayer) (x y : Int) : Option (Chunk × Int × Int) :=
  if layer.Chunks.length = 0 then none
  else
    let xn := goNorm x layer.ChunkSize.Width
    let yn := goNorm y layer.ChunkSize.Height
    let i := layer.chunkIndexAt x y
    if i < 0 then none
    else
      match layer.Chunks.get? i.toNat with
      | some c => some (c, Int.tmod xn layer.chunkSz.Width, Int.tmod yn layer.chunkSz.Height)
      | none => none

/-- The chunk-grid post-processing at the end of `TileLayer.UnmarshalXML`:
chunk size is taken from the last chunk, the wrap size from the last chunk's
right/bottom edge, and the column/row counts from their quotient. -/
def computeChunkGrid (layer : TileLayer) : TileLayer :=
  match layer.Chunks.getLast? with
  | none => layer
  | some last =>
    let sz : Size := { Width := last.Width, Height := last.Height }
    let cs : Size := { Width := last.Right, Height := last.Bottom }
    { layer with
      chunkSz := sz
      ChunkSize := cs
      chunkCols := Int.tdiv cs.Width sz.Width
      chunkRows := Int.tdiv cs.Height sz.Height }

/-- A 2×2 chunk grid of 16×16 chunks, with the grid fields derived by the
same post-processing the XML decoder performs. -/
def exampleChunkLayer : TileLayer :=
  computeChunkGrid
    { Width := 0, Height := 0, Tiles := []
    , Chunks :=
        [ { X := 0, Y := 0, Width := 16, Height := 16, Tiles := [] }
        , { X := 16, Y := 0, Width := 16, Height := 16, Tiles := [] }
        , { X := 0, Y := 16, Width := 16, Height := 16, Tiles := [] }
        , { X := 16, Y := 16, Width := 16, Height := 16, Tiles := [] } ]
    , ChunkSize := { Width := 0, Height := 0 }
    , chunkCols := 0, chunkRows := 0
    , chunkSz := { Width := 0, Height := 0 } }

/-- C3 fails on the code: for a 2×2 grid of 16×16 chunks, world coordinate
(-1, -1) normalizes to (31, 31), but the chunk-index formula
`(x / ChunkSize.Width) + ((y * ChunkSize.Height) * chunkCols)` yields
0 + (31·32)·2 = 1984, far outside the 4-chunk slice, so `ChunkAt` panics on
the slice access instead of returning the last chunk's cell (15, 15). -/
theorem C3_chunk_addressing_out_of_range :
    exampleChunkLayer.chunkIndexAt (-1) (-1) = 1984 ∧
    exampleChunkLayer.Chunks.length = 4 ∧
    exampleChunkLayer.ChunkAt (-1) (-1) = none := by
  exact ⟨by decide, by decide, by decide⟩

/-! ## Tile lookup (`TileLayer.GetGID` / `TileLayer.TileAt`) -/

/-- Go slice indexing with an `Int` index: a negative or too-large index
panics (`none`). -/
def goIndex (l : List TileID) (i : Int) : Option TileID :=
  if i < 0 then none else l.get? i.toNat

/-- `TileLayer.GetGID(x, y)`: for chunked layers, resolve through `ChunkAt`
and index the chunk's tiles; for finite layers, return 0 out of bounds and
`layer.Tiles[x + y*Width]` otherwise. A panic is `none`. -/
def TileLayer.GetGID (layer : TileLayer) (x y : Int) : Option TileID :=
  if 0 < layer.Chunks.length then
    match layer.ChunkAt x y with
    | some (c, lx, ly) => goIndex c.Tiles (lx + ly * c.Width)
    | none => none
  else if x < 0 ∨ x ≥ layer.Width ∨ y < 0 ∨ y ≥ layer.Height then some 0
  else goIndex layer.Tiles (x + y * layer.Width)

/-- `TileLayer.TileAt(x, y)`: a nonzero GID is resolved through the parent
map's `Tileset`; the tile is returned only when the resolved local ID is
strictly positive, otherwise `(nil, 0)`. -/
def TileLayer.TileAt (layer : TileLayer) (m : Map) (x y : Int) :
    Option (Option Tile × TileID) :=
  match layer.GetGID x y with
  | none => none
  | some gid =>
    if gid ≠ 0 then
      if (Map.Tileset m gid).2 > 0 then
        match (Map.Tileset m gid).1 with
        | some ts =>
          match ts.Tiles.get? (Map.Tileset m gid).2 with
          | some t => some (some t, gid)
          | none => none
        | none => none
      else some (none, 0)
    else some (none, 0)

/-- C9: on a finite layer, an in-bounds cell whose stored GID resolves to
local tile index 0 (e.g. the GID equals the resolved tileset's FirstGID with
no flags set) makes `TileAt` return `(nil, 0)`, because the lookup demands a
resolved index strictly greater than zero. -/
theorem C9_tileat_local_zero_nil (layer : TileLayer) (m : Map) (x y : Int)
    (gid : TileID)
    (hfin : layer.Chunks.length = 0)
    (hx0 : 0 ≤ x) (hx1 : x < layer.Width) (hy0 : 0 ≤ y) (hy1 : y < layer.Height)
    (hstore : goIndex layer.Tiles (x + y * layer.Width) = some gid)
    (hres : (Map.Tileset m gid).2 = 0) :
    layer.TileAt m x y = some (none, 0) := by
  have hget : layer.GetGID x y = some gid := by
    simp only [TileLayer.GetGID, hfin]
    rw [if_neg (by omega), if_neg (by push_neg; omega)]
    exact hstore
  simp only [TileLayer.TileAt, hget]
  by_cases hg : gid = 0
  · simp [hg]
  · simp [hg, hres]

/-- Witness for C9: a 1×1 layer storing GID 1 over a map whose only tileset
has FirstGID 1 — the stored GID resolves to local index 0 and `TileAt`
returns `(nil, 0)` even though the tileset has a tile 0. -/
theorem C9_witness :
    TileLayer.TileAt
      { Width := 1, Height := 1, Tiles := [1], Chunks := []
      , ChunkSize := ⟨0, 0⟩, chunkCols := 0, chunkRows := 0, chunkSz := ⟨0, 0⟩ }
      { Tilesets := [{ FirstGID := 1, Tileset := { Tiles := [⟨0⟩, ⟨1⟩] } }] }
      0 0 = some (none, 0) :=
  C9_tileat_local_zero_nil _ _ 0 0 1 (by decide) (by decide) (by decide)
    (by decide) (by decide) (by decide) (by decide)

/-! ## Objects and template inheritance (`Object.inherit`) -/

/-- Explicit-set flag bits, in the `iota` order of the source. -/
def flagName : Nat := 1
/-- Explicit-set bit for the class field. -/
def flagClass : Nat := 2
/-- Explicit-set bit for the x coordinate. -/
def flagX : Nat := 4
/-- Explicit-set bit for the y coordinate. -/
def flagY : Nat := 8
/-- Explicit-set bit for the width. -/
def flagWidth : Nat := 16
/-- Explicit-set bit for the height. -/
def flagHeight : Nat := 32
/-- Explicit-set bit for the rotation. -/
def flagRotation : Nat := 64
/-- Explicit-set bit for the GID. -/
def flagGID : Nat := 128
/-- Explicit-set bit for visibility. -/
def flagVisible : Nat := 256
/-- Explicit-set bit for the shape kind. -/
def flagKind : Nat := 512
/-- Explicit-set bit for polygon/polyline points. -/
def flagPoints : Nat := 1024
/-- Explicit-set bit for the text font family. -/
def flagFont : Nat := 2048
/-- Explicit-set bit for the text pixel size. -/
def flagFontSize : Nat := 4096
/-- Explicit-set bit for text word wrap. -/
def flagTextWrap : Nat := 8192
/-- Explicit-set bit for the text color. -/
def flagTextColor : Nat := 16384
/-- Explicit-set bit for bold style. -/
def flagBold : Nat := 32768
/-- Explicit-set bit for italic style. -/
def flagItalic : Nat := 65536
/-- Explicit-set bit for underline style. -/
def flagUnderline : Nat := 131072
/-- Explicit-set bit for strikeout style. -/
def flagStrikeout : Nat := 262144
/-- Explicit-set bit for kerning. -/
def flagKerning : Nat := 524288
/-- Explicit-set bit for horizontal alignment. -/
def flagHAlign : Nat := 1048576
/-- Explicit-set bit for vertical alignment. -/
def flagVAlign : Nat := 2097152
/-- Explicit-set bit for the text body. -/
def flagText : Nat := 4194304

/-- Font style bits (`FontStyle` is a `uint8` in the source). -/
def StyleBold : Nat := 1
/-- Italic style bit. -/
def StyleItalic : Nat := 2
/-- Underline style bit. -/
def StyleUnderline : Nat := 4
/-- Strikeout style bit. -/
def StyleStrikeout : Nat := 8
/-- Kerning style bit. -/
def StyleKerning : Nat := 16

/-- `AlignCenterH = AlignLeft | AlignRight`. -/
def AlignCenterH : Nat := 0x03
/-- `AlignCenterV = AlignTop | AlignBottom`. -/
def AlignCenterV : Nat := 0x0C
/-- `^AlignCenterH` as a `uint8`. -/
def clearHorizontal : Nat := AlignCenterH ^^^ 0xFF
/-- `^AlignCenterV` as a `uint8`. -/
def clearVertical : Nat := AlignCenterV ^^^ 0xFF

/-- A 2D vector. Go `float32` components are modelled as rationals: the
inheritance logic only copies them, never computes with them. -/
structure Vec2 where
  X : ℚ
  Y : ℚ
deriving DecidableEq

/-- Text payload of a text object (`Text` in the source, minus decode-only
state). `Style` and `Align` are the `uint8` bitfields. -/
structure Text where
  FontFamily : String
  Value : String
  PixelSize : Int
  Color : Nat
  Style : Nat
  WordWrap : Bool
  Align : Nat
  flags : Nat
deriving DecidableEq

/-- The Go zero value `Text{}` allocated by `inherit` when the object has no
text but the template does. -/
def zeroText : Text :=
  { FontFamily := "", Value := "", PixelSize := 0, Color := 0, Style := 0
  , WordWrap := false, Align := 0, flags := 0 }

/-- A map object, reduced to the fields the template-inheritance merge
touches. The `Properties` merge step of the source is omitted: no claim
concerns properties and its `Merge` helper is outside the sources in scope.
`Type'` stands for the Go field `Type` (a Lean keyword). -/
structure Object where
  ID : Int
  Name : String
  Class : String
  Location : Vec2
  Size : Vec2
  Rotation : ℚ
  GID : TileID
  Visible : Bool
  Type' : Nat
  Text : Option Text
  Points : List Vec2
  flags : Nat
deriving DecidableEq

/-- Go's built-in `copy(dst, src)`: overwrites the first
`min(len(dst), len(src))` elements of `dst`, returning the resulting
contents of `dst`. -/
def goCopy {α : Type} (dst src : List α) : List α :=
  src.take dst.length ++ dst.drop src.length

/-- `Object.override(flag)`: the field is overridden from the template iff
the object did not explicitly set it and the template did. -/
def Object.override (obj tmp : Object) (flag : Nat) : Bool :=
  if obj.flags &&& flag ≠ 0 then false
  else if tmp.flags &&& flag ≠ 0 then true
  else false

/-- The text-subfield merge step of `Object.inherit`: text subfields are
merged bit-by-bit into the (possibly freshly allocated) text record, and an
explicitly-set template body replaces the whole text value at the end. -/
def Object.inheritText (obj tmp : Object) : Option Tmx.Text :=
  let ov := fun flag => Object.override obj tmp flag
  match tmp.Text with
  | none => obj.Text
  | some tt =>
    let t0 := obj.Text.getD zeroText
    let ff := if ov flagFont then tt.FontFamily else t0.FontFamily
    let ps := if ov flagFontSize then tt.PixelSize else t0.PixelSize
    let ww := if ov flagTextWrap then tt.WordWrap else t0.WordWrap
    let tc := if ov flagTextColor then tt.Color else t0.Color
    let s1 := if ov flagBold then
        (if tt.Style &&& StyleBold ≠ 0 then t0.Style ||| StyleBold
         else t0.Style &&& (StyleBold ^^^ 0xFF)) else t0.Style
    let s2 := if ov flagItalic then
        (if tt.Style &&& StyleItalic ≠ 0 then s1 ||| StyleItalic
         else s1 &&& (StyleItalic ^^^ 0xFF)) else s1
    let s3 := if ov flagUnderline then
        (if tt.Style &&& StyleUnderline ≠ 0 then s2 ||| StyleUnderline
         else s2 &&& (StyleUnderline ^^^ 0xFF)) else s2
    let s4 := if ov flagStrikeout then
        (if tt.Style &&& StyleStrikeout ≠ 0 then s3 ||| StyleStrikeout
         else s3 &&& (StyleStrikeout ^^^ 0xFF)) else s3
    let s5 := if ov flagKerning then
        (if tt.Style &&& StyleKerning ≠ 0 then s4 ||| StyleKerning
         else s4 &&& (StyleKerning ^^^ 0xFF)) else s4
    let a1 := if ov flagHAlign then
        (t0.Align &&& clearHorizontal) ||| (tt.Align &&& clearVertical)
      else t0.Align
    let a2 := if ov flagVAlign then
        (a1 &&& clearVertical) ||| (tt.Align &&& clearHorizontal)
      else a1
    if ov flagText then some tt
    else some { t0 with
                FontFamily := ff
                PixelSize := ps
                WordWrap := ww
                Color := tc
                Style := s5
                Align := a2 }

/-- `Object.inherit`, with `tmp` the template's embedded object: each field
guarded by its own explicit-set flag; points are "copied" through
`make([]Vec2, 0, len(tmp.Points))` followed by `copy`; the text branch is
split into `Object.inheritText` above. -/
def Object.inherit (obj tmp : Object) : Object :=
  let ov := fun flag => Object.override obj tmp flag
  { obj with
    Type' := if ov flagKind then tmp.Type' else obj.Type'
    Name := if ov flagName then tmp.Name else obj.Name
    Class := if ov flagClass then tmp.Class else obj.Class
    Location := { X := if ov flagX then tmp.Location.X else obj.Location.X
                , Y := if ov flagY then tmp.Location.Y else obj.Location.Y }
    Size := { X := if ov flagWidth then tmp.Size.X else obj.Size.X
            , Y := if ov flagHeight then tmp.Size.Y else obj.Size.Y }
    Rotation := if ov flagRotation then tmp.Rotation else obj.Rotation
    GID := if ov flagGID then tmp.GID else obj.GID
    Visible := if ov flagVisible then tmp.Visible else obj.Visible
    Points := if ov flagPoints then
        goCopy (List.replicate 0 (⟨0, 0⟩ : Vec2)) tmp.Points
      else obj.Points
    Text := Object.inheritText obj tmp }

/-- The state of a freshly decoded object before any attribute is applied:
all zero values, except `Visible`, which the decoder initializes to true. -/
def zeroObject : Object :=
  { ID := 0, Name := "", Class := "", Location := ⟨0, 0⟩, Size := ⟨0, 0⟩
  , Rotation := 0, GID := 0, Visible := true, Type' := 0, Text := none
  , Points := [], flags := 0 }

/-- An object whose text explicitly set only the font family ("Serif",
`flagFont`), referencing a template whose text explicitly set both the font
and the body (`flagFont | flagText`). The text flags are merged into the
object's flags during decoding, exactly as `UnmarshalXML` does. -/
def objWithFont : Object :=
  { zeroObject with
    Text := some { zeroText with
                   FontFamily := "Serif"
                   flags := flagFont }
    flags := flagFont }

/-- The template for `objWithFont`: explicit font "Sans" and explicit body
"Hello". -/
def tmplWithText : Object :=
  { zeroObject with
    Text := some { zeroText with
                   FontFamily := "Sans"
                   Value := "Hello"
                   flags := flagFont ||| flagText }
    flags := flagFont ||| flagText }

/-- C4 fails as stated: the per-field rule does not hold for every
inheritable field. The font family is an inheritable, flag-tracked field
the object explicitly set ("Serif"), yet inheritance ends with the
TEMPLATE's font ("Sans") — the template's explicitly-set text body makes
`inherit` assign `obj.Text = tmp.Text` wholesale after the subfield merges,
clobbering the object's own value. (The `Points` field breaks the rule too:
see the C8 theorem, where an object-unset/template-set points slice comes
out empty instead of equal to the template's.) -/
theorem C4_counterexample :
    objWithFont.flags &&& flagFont ≠ 0 ∧
    objWithFont.Text.map (fun t => t.FontFamily) = some "Serif" ∧
    (Object.inherit objWithFont tmplWithText).Text.map (fun t => t.FontFamily)
      = some "Sans" ∧
    ("Sans" : String) ≠ "Serif" := by
  exact ⟨by decide, by rfl, by rfl, by decide⟩

/-- C4 as amended: the tri-state rule — the object's own value when the
object explicitly set the field, else the template's value when the template
explicitly set it, else the object's pre-inherit default — holds for each
scalar flag-guarded field (shape kind, name, class, x, y, width, height,
rotation, gid, visible), though not for points or text subfields; in
particular Name "Foo" is inherited, an explicit visible=false survives a
template's explicit visible=true, and a rotation set by neither stays 0. -/
theorem C4_template_inheritance :
    (∀ obj tmp : Object,
      (Object.inherit obj tmp).Name =
        (if obj.flags &&& flagName = 0 ∧ tmp.flags &&& flagName ≠ 0
         then tmp.Name else obj.Name) ∧
      (Object.inherit obj tmp).Class =
        (if obj.flags &&& flagClass = 0 ∧ tmp.flags &&& flagClass ≠ 0
         then tmp.Class else obj.Class) ∧
      (Object.inherit obj tmp).Type' =
        (if obj.flags &&& flagKind = 0 ∧ tmp.flags &&& flagKind ≠ 0
         then tmp.Type' else obj.Type') ∧
      (Object.inherit obj tmp).Location.X =
        (if obj.flags &&& flagX = 0 ∧ tmp.flags &&& flagX ≠ 0
         then tmp.Location.X else obj.Location.X) ∧
      (Object.inherit obj tmp).Location.Y =
        (if obj.flags &&& flagY = 0 ∧ tmp.flags &&& flagY ≠ 0
         then tmp.Location.Y else obj.Location.Y) ∧
      (Object.inherit obj tmp).Size.X =
        (if obj.flags &&& flagWidth = 0 ∧ tmp.flags &&& flagWidth ≠ 0
         then tmp.Size.X else obj.Size.X) ∧
      (Object.inherit obj tmp).Size.Y =
        (if obj.flags &&& flagHeight = 0 ∧ tmp.flags &&& flagHeight ≠ 0
         then tmp.Size.Y else obj.Size.Y) ∧
      (Object.inherit obj tmp).Rotation =
        (if obj.flags &&& flagRotation = 0 ∧ tmp.flags &&& flagRotation ≠ 0
         then tmp.Rotation else obj.Rotation) ∧
      (Object.inherit obj tmp).GID =
        (if obj.flags &&& flagGID = 0 ∧ tmp.flags &&& flagGID ≠ 0
         then tmp.GID else obj.GID) ∧
      (Object.inherit obj tmp).Visible =
        (if obj.flags &&& flagVisible = 0 ∧ tmp.flags &&& flagVisible ≠ 0
         then tmp.Visible else obj.Visible)) ∧
    (Object.inherit zeroObject
      { zeroObject with Name := "Foo", flags := flagName }).Name = "Foo" ∧
    (Object.inherit { zeroObject with Visible := false, flags := flagVisible }
      { zeroObject with Visible := true, flags := flagVisible }).Visible = false ∧
    (Object.inherit zeroObject zeroObject).Rotation = 0 := by
  refine ⟨?_, by decide, by decide, by decide⟩
  intro obj tmp
  refine ⟨?_, ?_, ?_, ?_, ?_, ?_, ?_, ?_, ?_, ?_⟩
  · by_cases h1 : obj.flags &&& flagName = 0 <;>
    by_cases h2 : tmp.flags &&& flagName = 0 <;>
    simp [Object.inherit, Object.override, h1, h2]
  · by_cases h1 : obj.flags &&& flagClass = 0 <;>
    by_cases h2 : tmp.flags &&& flagClass = 0 <;>
    simp [Object.inherit, Object.override, h1, h2]
  · by_cases h1 : obj.flags &&& flagKind = 0 <;>
    by_cases h2 : tmp.flags &&& flagKind = 0 <;>
    simp [Object.inherit, Object.override, h1, h2]
  · by_cases h1 : obj.flags &&& flagX = 0 <;>
    by_cases h2 : tmp.flags &&& flagX = 0 <;>
    simp [Object.inherit, Object.override, h1, h2]
  · by_cases h1 : obj.flags &&& flagY = 0 <;>
    by_cases h2 : tmp.flags &&& flagY = 0 <;>
    simp [Object.inherit, Object.override, h1, h2]
  · by_cases h1 : obj.flags &&& flagWidth = 0 <;>
    by_cases h2 : tmp.flags &&& flagWidth = 0 <;>
    simp [Object.inherit, Object.override, h1, h2]
  · by_cases h1 : obj.flags &&& flagHeight = 0 <;>
    by_cases h2 : tmp.flags &&& flagHeight = 0 <;>
    simp [Object.inherit, Object.override, h1, h2]
  · by_cases h1 : obj.flags &&& flagRotation = 0 <;>
    by_cases h2 : tmp.flags &&& flagRotation = 0 <;>
    simp [Object.inherit, Object.override, h1, h2]
  · by_cases h1 : obj.flags &&& flagGID = 0 <;>
    by_cases h2 : tmp.flags &&& flagGID = 0 <;>
    simp [Object.inherit, Object.override, h1, h2]
  · by_cases h1 : obj.flags &&& flagVisible = 0 <;>
    by_cases h2 : tmp.flags &&& flagVisible = 0 <;>
    simp [Object.inherit, Object.override, h1, h2]

/-- C8 fails on the code: an object that did not set its points, inheriting
from a template that explicitly set `Points = [(1, 2)]`, ends with an EMPTY
points slice — `inherit` allocates the destination with
`make([]Vec2, 0, len(tmp.Points))` (length zero, only capacity), so the
subsequent `copy` copies zero elements. -/
theorem C8_points_inherit_empty :
    (Object.inherit zeroObject
      { zeroObject with Points := [⟨1, 2⟩], flags := flagPoints }).Points = [] ∧
    [(⟨1, 2⟩ : Vec2)] ≠ ([] : List Vec2) := by
  exact ⟨by decide, by decide⟩

/-! ## The layer container (`container.go`, `Map.AddLayer`)

Layers live in an arena (`nodes`, Go pointer = index); the intrusive
`next`/`prev` links and the `container`/`parent` back-references are fields
of the nodes. `containerSet`/`parentSet` record whether `setContainer` /
`setParent` has been called on a node with the owning container/map. -/

/-- The four concrete layer kinds of the `switch` in `AddLayer`. -/
inductive LayerKind
  | tile
  | image
  | object
  | group
deriving DecidableEq

/-- One layer as the container sees it: dynamic kind, intrusive links, and
whether the container/parent back-references have been assigned. -/
structure LayerNode where
  kind : LayerKind
  next : Option Nat
  prev : Option Nat
  containerSet : Bool
  parentSet : Bool
deriving DecidableEq

/-- In-place update of the node a pointer designates; a dangling index is a
no-op (it cannot occur in the reachable states). -/
def modifyNode (ns : List LayerNode) (i : Nat) (f : LayerNode → LayerNode) :
    List LayerNode :=
  match ns[i]? with
  | some n => ns.set i (f n)
  | none => ns

/-- The `container` composite: arena, head/tail pointers, and the four
typed partition slices. -/
structure ContainerState where
  nodes : List LayerNode
  head : Option Nat
  tail : Option Nat
  TileLayers : List Nat
  ImageLayers : List Nat
  ObjectLayers : List Nat
  GroupLayers : List Nat
deriving DecidableEq

/-- A container before any `AddLayer` call. -/
def emptyContainer : ContainerState :=
  { nodes := [], head := none, tail := none
  , TileLayers := [], ImageLayers := [], ObjectLayers := [], GroupLayers := [] }

/-- `container.Len()`: the sum of the four typed partition lengths. -/
def ContainerState.Len (c : ContainerState) : Nat :=
  c.TileLayers.length + c.ImageLayers.length + c.ObjectLayers.length +
    c.GroupLayers.length

/-- The `switch v := layer.(type)` of `AddLayer`: append the new layer to the
partition matching its dynamic type. -/
def addPartition (c : ContainerState) (k : LayerKind) (idx : Nat) : ContainerState :=
  match k with
  | .tile => { c with TileLayers := c.TileLayers ++ [idx] }
  | .image => { c with ImageLayers := c.ImageLayers ++ [idx] }
  | .object => { c with ObjectLayers := c.ObjectLayers ++ [idx] }
  | .group => { c with GroupLayers := c.GroupLayers ++ [idx] }

/-- `container.AddLayer(layer)` with `layer` a freshly decoded node (all
links and back-references nil): partition by type; set `head` on first
insertion; link the old tail to the new node and back; move `tail`; finally
`c.head.setContainer(c)` — the container back-reference is set on the HEAD
node only. -/
def ContainerState.AddLayer (c : ContainerState) (k : LayerKind) : ContainerState :=
  let idx := c.nodes.length
  let fresh : LayerNode :=
    { kind := k, next := none, prev := none, containerSet := false, parentSet := false }
  let nodes0 := c.nodes ++ [fresh]
  let parts := addPartition c k idx
  let head := if c.head = none then some idx else c.head
  let nodes1 :=
    match c.tail with
    | some t =>
      modifyNode (modifyNode nodes0 t fun n => { n with next := some idx })
        idx fun n => { n with prev := some t }
    | none => nodes0
  let tail := some idx
  let nodes2 :=
    match head with
    | some h => modifyNode nodes1 h fun n => { n with containerSet := true }
    | none => nodes1
  { parts with nodes := nodes2, head := head, tail := tail }

/-- `Map.AddLayer(layer)`: the container append followed by
`m.head.setParent(m)` — again only on the head node. -/
def ContainerState.mapAddLayer (c : ContainerState) (k : LayerKind) : ContainerState :=
  match (c.AddLayer k).head with
  | some h =>
    { c.AddLayer k with
      nodes := modifyNode (c.AddLayer k).nodes h fun n => { n with parentSet := true } }
  | none => c.AddLayer k

/-- A sequence of `container.AddLayer` calls starting from empty. -/
def applyAdds (ks : List LayerKind) : ContainerState :=
  ks.foldl (fun s k => s.AddLayer k) emptyContainer

/-- A sequence of `Map.AddLayer` calls starting from an empty map container. -/
def applyMapAdds (ks : List LayerKind) : ContainerState :=
  ks.foldl (fun s k => s.mapAddLayer k) emptyContainer

/-- The count of nodes reached by following `Next()` from a start pointer
until nil, with explicit fuel (the arena size always suffices). -/
def walkCount (ns : List LayerNode) : Nat → Option Nat → Nat
  | _, none => 0
  | 0, some _ => 0
  | fuel + 1, some i =>
    match ns[i]? with
    | some n => walkCount ns fuel n.next + 1
    | none => 0

/-- The arena holds the layers in insertion order, each linked to its
successor: node `i`'s `next` is `i + 1`, or nil at the end. -/
def chained (ns : List LayerNode) : Prop :=
  ∀ i, i < ns.length →
    (ns[i]?).map LayerNode.next =
      some (if i + 1 < ns.length then some (i + 1) else none)

/-- Reachable-state invariant of the container. -/
structure ContainerInv (c : ContainerState) : Prop where
  hlen : c.Len = c.nodes.length
  hhead : c.head = if c.nodes.length = 0 then none else some 0
  htail : c.tail = if c.nodes.length = 0 then none else some (c.nodes.length - 1)
  hchain : chained c.nodes

theorem modifyNode_length (ns : List LayerNode) (i : Nat) (f : LayerNode → LayerNode) :
    (modifyNode ns i f).length = ns.length := by
  unfold modifyNode
  cases h : ns[i]? <;> simp

theorem modifyNode_get_self (ns : List LayerNode) (i : Nat) (f : LayerNode → LayerNode) :
    (modifyNode ns i f)[i]? = (ns[i]?).map f := by
  unfold modifyNode
  cases h : ns[i]? with
  | none => simp [h]
  | some a =>
    have hlt : i < ns.length := by
      by_contra hge
      rw [List.getElem?_eq_none (Nat.le_of_not_lt hge)] at h
      exact Option.noConfusion h
    simp [h, List.getElem?_set_eq_of_lt (f a) hlt]

theorem modifyNode_get_ne (ns : List LayerNode) (i : Nat) (f : LayerNode → LayerNode)
    (j : Nat) (h : j ≠ i) : (modifyNode ns i f)[j]? = ns[j]? := by
  unfold modifyNode
  cases hh : ns[i]? <;> simp [List.getElem?_set_ne (Ne.symm h)]

/-- A node update that does not touch a projection leaves that projection of
every slot unchanged. -/
theorem modify_preserves {α : Type} (g : LayerNode → α) (ns : List LayerNode)
    (i j : Nat) (f : LayerNode → LayerNode) (hf : ∀ n, g (f n) = g n) :
    ((modifyNode ns i f)[j]?).map g = (ns[j]?).map g := by
  by_cases hj : j = i
  · subst hj
    rw [modifyNode_get_self]
    cases h : ns[j]? <;> simp [hf]
  · rw [modifyNode_get_ne ns i f j hj]

theorem addPartition_Len (c : ContainerState) (k : LayerKind) (idx : Nat) :
    (addPartition c k idx).Len = c.Len + 1 := by
  cases k <;> simp [addPartition, ContainerState.Len] <;> omega

theorem AddLayer_Len (c : ContainerState) (k : LayerKind) :
    (c.AddLayer k).Len = c.Len + 1 := by
  have h : (c.AddLayer k).Len = (addPartition c k c.nodes.length).Len := by
    cases k <;> rfl
  rw [h, addPartition_Len]

theorem AddLayer_head (c : ContainerState) (k : LayerKind) :
    (c.AddLayer k).head = if c.head = none then some c.nodes.length else c.head := rfl

theorem AddLayer_tail (c : ContainerState) (k : LayerKind) :
    (c.AddLayer k).tail = some c.nodes.length := rfl

theorem AddLayer_nodes (c : ContainerState) (k : LayerKind) :
    (c.AddLayer k).nodes =
      (match (if c.head = none then some c.nodes.length else c.head) with
       | some h =>
         modifyNode
           (match c.tail with
            | some t =>
              modifyNode
                (modifyNode
                  (c.nodes ++ [{ kind := k, next := none, prev := none
                               , containerSet := false, parentSet := false }])
                  t fun n => { n with next := some c.nodes.length })
                c.nodes.length fun n => { n with prev := some t }
            | none =>
              c.nodes ++ [{ kind := k, next := none, prev := none
                          , containerSet := false, parentSet := false }])
           h fun n => { n with containerSet := true }
       | none =>
         match c.tail with
         | some t =>
           modifyNode
             (modifyNode
               (c.nodes ++ [{ kind := k, next := none, prev := none
                            , containerSet := false, parentSet := false }])
               t fun n => { n with next := some c.nodes.length })
             c.nodes.length fun n => { n with prev := some t }
         | none =>
           c.nodes ++ [{ kind := k, next := none, prev := none
                       , containerSet := false, parentSet := false }]) := rfl

theorem AddLayer_nodes_length (c : ContainerState) (k : LayerKind) :
    (c.AddLayer k).nodes.length = c.nodes.length + 1 := by
  rw [AddLayer_nodes]
  cases hh : (if c.head = none then some c.nodes.length else c.head) <;>
    cases ht : c.tail <;>
    simp [modifyNode_length]

/-- `AddLayer` preserves the container invariant. -/
theorem ContainerInv_AddLayer {c : ContainerState} (k : LayerKind)
    (hc : ContainerInv c) : ContainerInv (c.AddLayer k) := by
  obtain ⟨hlen, hhead, htail, hchain⟩ := hc
  refine ⟨?_, ?_, ?_, ?_⟩
  · rw [AddLayer_Len, AddLayer_nodes_length, hlen]
  · rw [AddLayer_head, AddLayer_nodes_length]
    by_cases h0 : c.nodes.length = 0
    · rw [hhead, if_pos h0]
      simp [h0]
    · rw [hhead, if_neg h0]
      simp
  · rw [AddLayer_tail, AddLayer_nodes_length]
    simp
  · by_cases h0 : c.nodes.length = 0
    · have hnil : c.nodes = [] := List.length_eq_zero.mp h0
      have hh : c.head = none := by rw [hhead, if_pos h0]
      have ht : c.tail = none := by rw [htail, if_pos h0]
      have hnodes : (c.AddLayer k).nodes =
          [{ kind := k, next := none, prev := none
           , containerSet := true, parentSet := false }] := by
        rw [AddLayer_nodes, hh, ht, hnil]
        simp [modifyNode]
      unfold chained
      intro j hj
      rw [hnodes] at hj ⊢
      simp at hj
      subst hj
      simp
    · have hh : c.head = some 0 := by rw [hhead, if_neg h0]
      have ht : c.tail = some (c.nodes.length - 1) := by rw [htail, if_neg h0]
      have hifh : (if c.head = none then some c.nodes.length else c.head) = some 0 := by
        rw [hh]
        simp
      unfold chained
      intro j hj
      rw [AddLayer_nodes_length] at hj ⊢
      rw [AddLayer_nodes, hifh, ht]
      show ((modifyNode (modifyNode (modifyNode _ _ _) _ _) 0
        fun n => { n with containerSet := true })[j]?).map LayerNode.next = _
      rw [modify_preserves LayerNode.next _ 0 j
        (fun n => { n with containerSet := true }) (fun n => rfl)]
      rw [modify_preserves LayerNode.next _ c.nodes.length j
        (fun n => { n with prev := some (c.nodes.length - 1) }) (fun n => rfl)]
      by_cases hj1 : j = c.nodes.length - 1
      · subst hj1
        rw [modifyNode_get_self]
        have hlt : c.nodes.length - 1 < c.nodes.length := by omega
        rw [List.getElem?_append_left hlt]
        obtain ⟨nd, hnd⟩ : ∃ nd, c.nodes[c.nodes.length - 1]? = some nd :=
          ⟨c.nodes[c.nodes.length - 1], List.getElem?_eq_getElem hlt⟩
        rw [hnd]
        have e1 : c.nodes.length - 1 + 1 = c.nodes.length := by omega
        simp [e1]
      · rw [modifyNode_get_ne _ _ _ _ hj1]
        by_cases hjn : j = c.nodes.length
        · subst hjn
          simp
        · have hjlt : j < c.nodes.length := by omega
          rw [List.getElem?_append_left hjlt]
          have hcj := hchain j hjlt
          rw [hcj]
          have h2 : j + 1 < c.nodes.length := by omega
          simp [h2, Nat.lt_succ_of_lt h2]

theorem ContainerInv_empty : ContainerInv emptyContainer := by
  refine ⟨rfl, rfl, rfl, ?_⟩
  intro i hi
  simp [emptyContainer] at hi

theorem ContainerInv_applyAdds (ks : List LayerKind) : ContainerInv (applyAdds ks) := by
  unfold applyAdds
  suffices h : ∀ c, ContainerInv c →
      ContainerInv (ks.foldl (fun s k => s.AddLayer k) c) from h _ ContainerInv_empty
  induction ks with
  | nil => intro c hc; exact hc
  | cons k rest ih => intro c hc; exact ih _ (ContainerInv_AddLayer k hc)

/-- Walking a fully chained arena from slot `i` counts the remaining
`length - i` nodes, given enough fuel. -/
theorem walkCount_chain (ns : List LayerNode) (hch : chained ns) :
    ∀ fuel i, i < ns.length → ns.length - i ≤ fuel →
      walkCount ns fuel (some i) = ns.length - i := by
  intro fuel
  induction fuel with
  | zero => intro i hi hf; omega
  | succ f ih =>
    intro i hi hf
    have hnext := hch i hi
    obtain ⟨nd, hnd⟩ : ∃ nd, ns[i]? = some nd :=
      ⟨ns[i], List.getElem?_eq_getElem hi⟩
    rw [hnd] at hnext
    have hval : nd.next = if i + 1 < ns.length then some (i + 1) else none := by
      simpa using hnext
    rw [walkCount, hnd]
    show walkCount ns f nd.next + 1 = ns.length - i
    by_cases hlt : i + 1 < ns.length
    · rw [hval, if_pos hlt, ih (i + 1) hlt (by omega)]
      omega
    · rw [hval, if_neg hlt]
      show walkCount ns f none + 1 = ns.length - i
      rw [walkCount]
      omega

/-- C6: after any sequence of `AddLayer` calls on an initially empty
container, `Len()` equals the number of nodes reachable by following
`Next()` from `Head()` to nil, and equals the sum of the four typed
partition lengths. -/
theorem C6_container_length_invariant (ks : List LayerKind) :
    (applyAdds ks).Len =
      walkCount (applyAdds ks).nodes (applyAdds ks).nodes.length (applyAdds ks).head ∧
    (applyAdds ks).Len =
      (applyAdds ks).TileLayers.length + (applyAdds ks).ImageLayers.length +
        (applyAdds ks).ObjectLayers.length + (applyAdds ks).GroupLayers.length := by
  obtain ⟨hlen, hhead, htail, hchain⟩ := ContainerInv_applyAdds ks
  refine ⟨?_, rfl⟩
  rw [hlen, hhead]
  by_cases h0 : (applyAdds ks).nodes.length = 0
  · rw [if_pos h0, h0]
    rfl
  · rw [if_neg h0]
    rw [walkCount_chain _ hchain _ 0 (Nat.pos_of_ne_zero h0) (by omega)]
    omega

/-- When the appended-to container has a head, `mapAddLayer` is the append
followed by setting the head's parent reference. -/
theorem mapAddLayer_some (c : ContainerState) (k : LayerKind) (h : Nat)
    (hh : (c.AddLayer k).head = some h) :
    c.mapAddLayer k =
      { c.AddLayer k with
        nodes := modifyNode (c.AddLayer k).nodes h
          fun n => { n with parentSet := true } } := by
  unfold ContainerState.mapAddLayer
  rw [hh]

/-- `Map.AddLayer` preserves the invariant (it only flips a back-reference
flag on the head node). -/
theorem ContainerInv_mapAddLayer {c : ContainerState} (k : LayerKind)
    (hc : ContainerInv c) : ContainerInv (c.mapAddLayer k) := by
  have base := ContainerInv_AddLayer k hc
  obtain ⟨hlen, hhead, htail, hchain⟩ := base
  cases hh : (c.AddLayer k).head with
  | none =>
    have he : c.mapAddLayer k = c.AddLayer k := by
      unfold ContainerState.mapAddLayer
      rw [hh]
    rw [he]
    exact ⟨hlen, hhead, htail, hchain⟩
  | some h =>
    rw [mapAddLayer_some c k h hh]
    refine ⟨?_, ?_, ?_, ?_⟩
    · simpa [ContainerState.Len, modifyNode_length] using hlen
    · simpa [modifyNode_length] using hhead
    · simpa [modifyNode_length] using htail
    · intro i hi
      simp only [modifyNode_length] at hi ⊢
      rw [modify_preserves LayerNode.next _ h i
        (fun n => { n with parentSet := true }) (fun n => rfl)]
      exact hchain i hi

theorem ContainerInv_applyMapAdds (ks : List LayerKind) :
    ContainerInv (applyMapAdds ks) := by
  unfold applyMapAdds
  suffices h : ∀ c, ContainerInv c →
      ContainerInv (ks.foldl (fun s k => s.mapAddLayer k) c) from h _ ContainerInv_empty
  induction ks with
  | nil => intro c hc; exact hc
  | cons k rest ih => intro c hc; exact ih _ (ContainerInv_mapAddLayer k hc)

/-- Under the invariant, `AddLayer` leaves `head = some 0` and sets the head
node's container back-reference. -/
theorem AddLayer_head_backref {c : ContainerState} (k : LayerKind)
    (hc : ContainerInv c) :
    (c.AddLayer k).head = some 0 ∧
    ((c.AddLayer k).nodes[0]?).map LayerNode.containerSet = some true := by
  obtain ⟨hlen, hhead, htail, hchain⟩ := hc
  have hifh : (if c.head = none then some c.nodes.length else c.head) = some 0 := by
    by_cases h0 : c.nodes.length = 0
    · rw [hhead, if_pos h0]
      simp [h0]
    · rw [hhead, if_neg h0]
      simp
  refine ⟨by rw [AddLayer_head, hifh], ?_⟩
  rw [AddLayer_nodes, hifh]
  cases ht : c.tail with
  | none =>
    show ((modifyNode (c.nodes ++ [_]) 0
      fun n => { n with containerSet := true })[0]?).map LayerNode.containerSet = some true
    rw [modifyNode_get_self]
    obtain ⟨nd, hnd⟩ : ∃ nd, (c.nodes ++
        [({ kind := k, next := none, prev := none, containerSet := false
          , parentSet := false } : LayerNode)])[0]? = some nd :=
      ⟨_, List.getElem?_eq_getElem (by simp)⟩
    rw [hnd]
    simp
  | some t =>
    show ((modifyNode (modifyNode (modifyNode (c.nodes ++ [_]) t _) c.nodes.length _) 0
      fun n => { n with containerSet := true })[0]?).map LayerNode.containerSet = some true
    rw [modifyNode_get_self]
    obtain ⟨nd, hnd⟩ : ∃ nd,
        (modifyNode (modifyNode (c.nodes ++
          [({ kind := k, next := none, prev := none, containerSet := false
            , parentSet := false } : LayerNode)]) t
            (fun n => { n with next := some c.nodes.length })) c.nodes.length
            (fun n => { n with prev := some t }))[0]? = some nd :=
      ⟨_, List.getElem?_eq_getElem (by simp [modifyNode_length])⟩
    rw [hnd]
    simp

/-- C5 as amended: after every `Map.AddLayer` call on a map built by any
sequence of such calls, the HEAD layer (and only it, per the
counterexample) has its container back-reference and its map parent
reference set. -/
theorem C5_head_backref (ks : List LayerKind) (k : LayerKind) :
    (applyMapAdds (ks ++ [k])).head = some 0 ∧
    ((applyMapAdds (ks ++ [k])).nodes[0]?).map LayerNode.containerSet = some true ∧
    ((applyMapAdds (ks ++ [k])).nodes[0]?).map LayerNode.parentSet = some true := by
  have hfold : applyMapAdds (ks ++ [k]) = (applyMapAdds ks).mapAddLayer k := by
    unfold applyMapAdds
    rw [List.foldl_append]
    rfl
  obtain ⟨hh, hcs⟩ := AddLayer_head_backref k (ContainerInv_applyMapAdds ks)
  rw [hfold, mapAddLayer_some _ k 0 hh]
  refine ⟨hh, ?_, ?_⟩
  · show ((modifyNode ((applyMapAdds ks).AddLayer k).nodes 0
      fun n => { n with parentSet := true })[0]?).map LayerNode.containerSet = some true
    rw [modify_preserves LayerNode.containerSet _ 0 0
      (fun n => { n with parentSet := true }) (fun n => rfl)]
    exact hcs
  · show ((modifyNode ((applyMapAdds ks).AddLayer k).nodes 0
      fun n => { n with parentSet := true })[0]?).map LayerNode.parentSet = some true
    rw [modifyNode_get_self]
    cases hx : ((applyMapAdds ks).AddLayer k).nodes[0]? with
    | none =>
      rw [hx] at hcs
      exact Option.noConfusion hcs
    | some nd =>
      simp

/-- C5 fails as stated: after two `Map.AddLayer` calls the second layer is
reachable from the head via `Next`, but its container and parent
back-references were never assigned — only the head node's are. -/
theorem C5_counterexample :
    ((applyMapAdds [LayerKind.tile, LayerKind.tile]).nodes[0]?).map LayerNode.next
        = some (some 1) ∧
    ((applyMapAdds [LayerKind.tile, LayerKind.tile]).nodes[1]?).map LayerNode.containerSet
        = some false ∧
    ((applyMapAdds [LayerKind.tile, LayerKind.tile]).nodes[1]?).map LayerNode.parentSet
        = some false := by
  exact ⟨by decide, by decide, by decide⟩


/-! ## XML attribute decoding of layers (`baseLayer.xmlAttr`) -/

/-- The strconv/color parsers `xmlAttr` calls are standard-library
collaborators; they are abstracted as an explicit parameter record (a parse
failure is `none`). -/
structure Parsers where
  atoi : String → Option Int
  parseFloat : String → Option ℚ
  parseBool : String → Option Bool
  parseColor : String → Option Nat

/-- The shared layer base (`baseLayer`), reduced to the fields `xmlAttr`
writes. -/
structure BaseLayer where
  ID : Int
  Name : String
  Class : String
  Offset : Vec2
  Parallax : Vec2
  Opacity : ℚ
  Visible : Bool
  TintColor : Nat
  X : Int
  Y : Int
  Width : Int
  Height : Int
deriving DecidableEq

/-- The zero-value layer after `initDefaults` (opacity 1, visible true);
`Name` and `Class` start empty. -/
def initLayer : BaseLayer :=
  { ID := 0, Name := "", Class := "", Offset := ⟨0, 0⟩, Parallax := ⟨0, 0⟩
  , Opacity := 1, Visible := true, TintColor := 0
  , X := 0, Y := 0, Width := 0, Height := 0 }

/-- `baseLayer.xmlAttr(attr)`, the attribute switch of the XML decoder:
returns the updated layer and whether the attribute was handled, or a parse
error. Exactly as in the source, the `"name"` case assigns to `Class`. -/
def BaseLayer.xmlAttr (P : Parsers) (layer : BaseLayer) (name value : String) :
    Except Unit (BaseLayer × Bool) :=
  if name = "id" then
    match P.atoi value with
    | some v => .ok ({ layer with ID := v }, true)
    | none => .error ()
  else if name = "name" then .ok ({ layer with Class := value }, true)
  else if name = "class" then .ok ({ layer with Class := value }, true)
  else if name = "tintcolor" then
    match P.parseColor value with
    | some v => .ok ({ layer with TintColor := v }, true)
    | none => .error ()
  else if name = "offsetx" then
    match P.parseFloat value with
    | some v => .ok ({ layer with Offset := { layer.Offset with X := v } }, true)
    | none => .error ()
  else if name = "offsety" then
    match P.parseFloat value with
    | some v => .ok ({ layer with Offset := { layer.Offset with Y := v } }, true)
    | none => .error ()
  else if name = "parallaxx" then
    match P.parseFloat value with
    | some v => .ok ({ layer with Parallax := { layer.Parallax with X := v } }, true)
    | none => .error ()
  else if name = "parallaxy" then
    match P.parseFloat value with
    | some v => .ok ({ layer with Parallax := { layer.Parallax with Y := v } }, true)
    | none => .error ()
  else if name = "opacity" then
    match P.parseFloat value with
    | some v => .ok ({ layer with Opacity := v }, true)
    | none => .error ()
  else if name = "visible" then
    match P.parseBool value with
    | some v => .ok ({ layer with Visible := v }, true)
    | none => .error ()
  else if name = "x" then
    match P.atoi value with
    | some v => .ok ({ layer with X := v }, true)
    | none => .error ()
  else if name = "y" then
    match P.atoi value with
    | some v => .ok ({ layer with Y := v }, true)
    | none => .error ()
  else if name = "width" then
    match P.atoi value with
    | some v => .ok ({ layer with Width := v }, true)
    | none => .error ()
  else if name = "height" then
    match P.atoi value with
    | some v => .ok ({ layer with Height := v }, true)
    | none => .error ()
  else .ok (layer, false)

/-- The attribute loop of the layer XML decoders: apply `xmlAttr` to each
attribute in order, aborting on a parse error (unhandled attributes are
merely logged). -/
def applyAttrs (P : Parsers) (layer : BaseLayer) :
    List (String × String) → Except Unit BaseLayer
  | [] => .ok layer
  | (n, v) :: rest =>
    match BaseLayer.xmlAttr P layer n v with
    | .ok (l1, _) => applyAttrs P l1 rest
    | .error e => .error e

/-- No branch of `xmlAttr` ever writes the `Name` field. -/
theorem xmlAttr_Name_const (P : Parsers) (l : BaseLayer) (n v : String)
    (l1 : BaseLayer) (b : Bool)
    (h : BaseLayer.xmlAttr P l n v = .ok (l1, b)) : l1.Name = l.Name := by
  unfold BaseLayer.xmlAttr at h
  by_cases e1 : n = "id"
  · rw [if_pos e1] at h
    cases hp : P.atoi v <;> rw [hp] at h
    · exact Except.noConfusion h
    · injection h with h1
      injection h1 with h2 h3
      rw [← h2]
  rw [if_neg e1] at h
  by_cases e2 : n = "name"
  · rw [if_pos e2] at h
    injection h with h1
    injection h1 with h2 h3
    rw [← h2]
  rw [if_neg e2] at h
  by_cases e3 : n = "class"
  · rw [if_pos e3] at h
    injection h with h1
    injection h1 with h2 h3
    rw [← h2]
  rw [if_neg e3] at h
  by_cases e4 : n = "tintcolor"
  · rw [if_pos e4] at h
    cases hp : P.parseColor v <;> rw [hp] at h
    · exact Except.noConfusion h
    · injection h with h1
      injection h1 with h2 h3
      rw [← h2]
  rw [if_neg e4] at h
  by_cases e5 : n = "offsetx"
  · rw [if_pos e5] at h
    cases hp : P.parseFloat v <;> rw [hp] at h
    · exact Except.noConfusion h
    · injection h with h1
      injection h1 with h2 h3
      rw [← h2]
  rw [if_neg e5] at h
  by_cases e6 : n = "offsety"
  · rw [if_pos e6] at h
    cases hp : P.parseFloat v <;> rw [hp] at h
    · exact Except.noConfusion h
    · injection h with h1
      injection h1 with h2 h3
      rw [← h2]
  rw [if_neg e6] at h
  by_cases e7 : n = "parallaxx"
  · rw [if_pos e7] at h
    cases hp : P.parseFloat v <;> rw [hp] at h
    · exact Except.noConfusion h
    · injection h with h1
      injection h1 with h2 h3
      rw [← h2]
  rw [if_neg e7] at h
  by_cases e8 : n = "parallaxy"
  · rw [if_pos e8] at h
    cases hp : P.parseFloat v <;> rw [hp] at h
    · exact Except.noConfusion h
    · injection h with h1
      injection h1 with h2 h3
      rw [← h2]
  rw [if_neg e8] at h
  by_cases e9 : n = "opacity"
  · rw [if_pos e9] at h
    cases hp : P.parseFloat v <;> rw [hp] at h
    · exact Except.noConfusion h
    · injection h with h1
      injection h1 with h2 h3
      rw [← h2]
  rw [if_neg e9] at h
  by_cases e10 : n = "visible"
  · rw [if_pos e10] at h
    cases hp : P.parseBool v <;> rw [hp] at h
    · exact Except.noConfusion h
    · injection h with h1
      injection h1 with h2 h3
      rw [← h2]
  rw [if_neg e10] at h
  by_cases e11 : n = "x"
  · rw [if_pos e11] at h
    cases hp : P.atoi v <;> rw [hp] at h
    · exact Except.noConfusion h
    · injection h with h1
      injection h1 with h2 h3
      rw [← h2]
  rw [if_neg e11] at h
  by_cases e12 : n = "y"
  · rw [if_pos e12] at h
    cases hp : P.atoi v <;> rw [hp] at h
    · exact Except.noConfusion h
    · injection h with h1
      injection h1 with h2 h3
      rw [← h2]
  rw [if_neg e12] at h
  by_cases e13 : n = "width"
  · rw [if_pos e13] at h
    cases hp : P.atoi v <;> rw [hp] at h
    · exact Except.noConfusion h
    · injection h with h1
      injection h1 with h2 h3
      rw [← h2]
  rw [if_neg e13] at h
  by_cases e14 : n = "height"
  · rw [if_pos e14] at h
    cases hp : P.atoi v <;> rw [hp] at h
    · exact Except.noConfusion h
    · injection h with h1
      injection h1 with h2 h3
      rw [← h2]
  rw [if_neg e14] at h
  injection h with h1
  injection h1 with h2 h3
  rw [← h2]

theorem applyAttrs_Name_const (P : Parsers) (attrs : List (String × String)) :
    ∀ (l l1 : BaseLayer), applyAttrs P l attrs = .ok l1 → l1.Name = l.Name := by
  induction attrs with
  | nil =>
    intro l l1 h
    cases h
    rfl
  | cons a rest ih =>
    intro l l1 h
    unfold applyAttrs at h
    split at h
    case _ lm b heq =>
      rw [ih _ _ h, xmlAttr_Name_const P l a.1 a.2 lm b heq]
    case _ => exact absurd h (by simp)

/-- C10: the XML decoder routes a `name` attribute into the `Class` field —
identically to a `class` attribute — and no attribute sequence containing
`name` ever populates the `Name` field, which stays the empty string. -/
theorem C10_name_attr_goes_to_class :
    (∀ (P : Parsers) (layer : BaseLayer) (v : String),
      BaseLayer.xmlAttr P layer "name" v = .ok ({ layer with Class := v }, true) ∧
      BaseLayer.xmlAttr P layer "name" v = BaseLayer.xmlAttr P layer "class" v) ∧
    (∀ (P : Parsers) (attrs : List (String × String)) (l1 : BaseLayer),
      applyAttrs P initLayer attrs = .ok l1 → l1.Name = "") := by
  constructor
  · intro P layer v
    constructor <;> rfl
  · intro P attrs l1 h
    exact applyAttrs_Name_const P attrs initLayer l1 h

/-- A parser record for the witness (never consulted by the `name` case). -/
def noParsers : Parsers :=
  { atoi := fun _ => none, parseFloat := fun _ => none
  , parseBool := fun _ => none, parseColor := fun _ => none }

/-- Witness for C10: processing `name="Foo"` on a fresh layer yields
`Class = "Foo"` and `Name = ""`. -/
theorem C10_witness :
    applyAttrs noParsers initLayer [("name", "Foo")] =
      .ok { initLayer with Class := "Foo" } ∧
    ({ initLayer with Class := "Foo" } : BaseLayer).Name = "" :=
  ⟨rfl, C10_name_attr_goes_to_class.2 noParsers [("name", "Foo")]
    { initLayer with Class := "Foo" } rfl⟩



/-! ## Base64/compressed tile-data decoding (`TileData.decode`, `inflate`) -/

/-- The compression enum (`Compression` is an `int`; `unknown` stands for
any value outside the named constants). -/
inductive Compression
  | none
  | gzip
  | zlib
  | zstd
  | unknown
deriving DecidableEq

/-- The encoding enum. -/
inductive Encoding
  | csv
  | base64
  | unknown
deriving DecidableEq

/-- Abstract model of the external gzip/zlib/zstd readers: for an algorithm
and a source buffer, the full decompressed byte stream, or `none` when the
reader fails (bad header / corrupt stream). A single `Read(dst)` on the
stream then yields `min (stream length) (len dst)` bytes. -/
structure Decompressor where
  run : Compression → List Nat → Option (List Nat)

/-- `inflate(src, dst, comp)`: select the reader by algorithm (an unnamed
algorithm is an invalid-enum error; `CompressionNone` just copies), perform
one `Read` into `dst`, and fail when it returns a byte count different from
`len(dst)`. -/
def inflate (D : Decompressor) (src dst : List Nat) (comp : Compression) :
    Except String (List Nat) :=
  match comp with
  | .none => .ok (goCopy dst src)
  | .unknown => .error "errInvalidEnum Compression"
  | c =>
    match D.run c src with
    | Option.none => .error "reader"
    | some stream =>
      let n := min stream.length dst.length
      let dst1 := stream.take n ++ dst.drop n
      if n ≠ dst.length then .error "failed to read correct number of bytes"
      else .ok dst1

/-- 4-byte little-endian word decoding (`binary.Read` with `[]TileID`). -/
def fromLE32 : List Nat → List TileID
  | b0 :: b1 :: b2 :: b3 :: rest =>
    (b0 + 256 * b1 + 65536 * b2 + 16777216 * b3) :: fromLE32 rest
  | _ => []

/-- `binary.Read(bytes.NewReader(buffer), LittleEndian, gids)` as `decode`
uses it: a full read fills every tile; a completely empty buffer yields
`io.EOF`, which `decode` deliberately ignores (tiles keep their zero
values); a partial buffer is an `ErrUnexpectedEOF` error. -/
def binaryReadLE (buffer : List Nat) (gids : List TileID) :
    Except String (List TileID) :=
  if 4 * gids.length ≤ buffer.length then .ok (fromLE32 (buffer.take (4 * gids.length)))
  else if buffer.length = 0 then .ok gids
  else .error "unexpected EOF"

/-- `TileData.decode(raw, gids)`, parameterized by the external base64
decoder and decompression streams: CSV decodes directly; otherwise the
payload must be Base64; with compression, a buffer of exactly
`len(gids) * 4` zero bytes is allocated and `inflate` fills it. -/
def TileData.decode (D : Decompressor) (b64 : List Char → Option (List Nat))
    (enc : Encoding) (comp : Compression) (raw : List Char) (gids : List TileID) :
    Except String (List TileID) :=
  if enc = .csv then
    match decodeCSV raw gids with
    | some out => .ok out
    | Option.none => .error "tile count mismatch"
  else if enc ≠ .base64 then .error "errInvalidEnum Encoding"
  else
    match b64 raw with
    | Option.none => .error "base64"
    | some decoded =>
      if comp = .none then binaryReadLE decoded gids
      else
        let buffer := List.replicate (gids.length * 4) 0
        match inflate D decoded buffer comp with
        | .error e => .error e
        | .ok buf => binaryReadLE buf gids

/-- C7 fails as stated for over-long streams: with one expected tile
(buffer 4 bytes) and a gzip stream decompressing to 8 bytes, decode
SUCCEEDS — the single `Read` fills the 4-byte buffer and the excess is
never observed — instead of reporting the count mismatch. -/
theorem C7_counterexample :
    TileData.decode ⟨fun _ _ => some [1, 0, 0, 0, 2, 0, 0, 0]⟩ (fun _ => some [])
        Encoding.base64 Compression.gzip [] [0] = .ok [1] ∧
    ([1, 0, 0, 0, 2, 0, 0, 0] : List Nat).length ≠ 4 * ([0] : List TileID).length := by
  exact ⟨by rfl, by decide⟩

/-- C7 as amended: with compression, decode inflates into a buffer of
exactly `tileCount × 4` zero bytes; a decompressed stream SHORTER than that
is reported as an error, while a stream of at least that length succeeds
and only its first `tileCount × 4` bytes become tile IDs. -/
theorem C7_compressed_decode (D : Decompressor) (b64 : List Char → Option (List Nat))
    (comp : Compression) (raw : List Char) (gids : List TileID)
    (decoded stream : List Nat)
    (hcomp1 : comp ≠ Compression.none) (hcomp2 : comp ≠ Compression.unknown)
    (hb64 : b64 raw = some decoded)
    (hrun : D.run comp decoded = some stream) :
    (stream.length < 4 * gids.length →
      TileData.decode D b64 Encoding.base64 comp raw gids =
        .error "failed to read correct number of bytes") ∧
    (4 * gids.length ≤ stream.length →
      TileData.decode D b64 Encoding.base64 comp raw gids =
        .ok (fromLE32 (stream.take (4 * gids.length)))) := by
  have hbuf : (List.replicate (gids.length * 4) (0 : Nat)).length = 4 * gids.length := by
    simp [Nat.mul_comm]
  have hinfl : inflate D decoded (List.replicate (gids.length * 4) 0) comp =
      (let n := min stream.length (4 * gids.length)
       let dst1 := stream.take n ++ (List.replicate (gids.length * 4) (0 : Nat)).drop n
       if n ≠ 4 * gids.length then Except.error "failed to read correct number of bytes"
       else Except.ok dst1) := by
    cases comp <;> simp_all [inflate, hbuf]
  constructor
  · intro hshort
    have hn : min stream.length (4 * gids.length) = stream.length := by omega
    simp only [TileData.decode, hb64]
    rw [if_neg (by decide), if_neg (by simp), if_neg hcomp1]
    rw [hinfl]
    simp only [hn]
    rw [if_pos (by omega)]
  · intro hlong
    have hn : min stream.length (4 * gids.length) = 4 * gids.length := by omega
    simp only [TileData.decode, hb64]
    rw [if_neg (by decide), if_neg (by simp), if_neg hcomp1]
    rw [hinfl]
    simp only [hn]
    rw [if_neg (by omega)]
    show binaryReadLE (stream.take (4 * gids.length) ++ _) gids = _
    have hdrop : (List.replicate (gids.length * 4) (0 : Nat)).drop (4 * gids.length) = [] := by
      simp [Nat.mul_comm]
    rw [hdrop, List.append_nil]
    unfold binaryReadLE
    rw [if_pos (by simp [hlong])]
    congr 1
    rw [List.take_take]
    simp

/-- Witness for C7: a zlib stream of 2 bytes against one expected tile
(4 bytes) errors; a stream of exactly 4 bytes decodes to one tile. -/
theorem C7_witness :
    TileData.decode ⟨fun _ _ => some [9, 9]⟩ (fun _ => some [])
        Encoding.base64 Compression.zlib [] [0] =
      .error "failed to read correct number of bytes" :=
  (C7_compressed_decode ⟨fun _ _ => some [9, 9]⟩ (fun _ => some [])
    Compression.zlib [] [0] [] [9, 9] (by decide) (by decide) rfl rfl).1 (by decide)


end Tmx
